import Mathlib

/-!
Verification development for the NSE option-chain repository.

The repository fetches option-chain snapshots from an upstream HTTP
service, normalizes them into canonical option records, and stores them
in a document store with compound-key deduplication.  This file gives a
shallow embedding of the fetch/parse/store core:

* numeric payload values are modelled as exact rationals (the Python
  code only manipulates decimal literals and decimal strings in the
  scenarios of interest);
* timestamps are modelled as natural numbers;
* the document store is modelled by the list of dedup keys it holds;
* fallible Python code is modelled with Option / Except.

Source files embedded below: models.py (OptionChainEntry and its
validators, NSE_FIELD_MAPPING), nse_service.py (NSEDataFetcher),
database_service.py (DatabaseService), data_pipeline.py (DataPipeline),
nse_option_chain_pipeline.py (OptionChainParser, the CSV path).
-/

namespace NSE

/-- A raw scalar value as it arrives from the JSON payload, after the
standard library json load: Python None, int, float or str.  Floats are
modelled as exact rationals. -/
inductive RawVal where
  | null
  | int (n : Int)
  | num (q : Rat)
  | str (s : String)
deriving DecidableEq, Repr

/-- Python truthiness of a raw scalar, as used by the guard
`if not strike_price: continue` in nse_service.parse_option_chain. -/
def pyTruthy : RawVal → Bool
  | .null => false
  | .int n => n != 0
  | .num q => q != 0
  | .str s => s != ""

/-- Numeric value of a digit string read most-significant first. -/
def digitsToNat (cs : List Char) : Nat :=
  cs.foldl (fun a c => a * 10 + (c.toNat - 48)) 0

/-- Splitting a character list at every occurrence of a separator. -/
def splitOnChar (c : Char) : List Char → List (List Char)
  | [] => [[]]
  | x :: xs =>
      let r := splitOnChar c xs
      if x = c then [] :: r
      else
        match r with
        | [] => [[x]]
        | y :: ys => (x :: y) :: ys

/-- Model of Python `float(s)` on a string: optional sign, then either a
digit run, or a digit run with one decimal point (either side of the
point may be empty but not both).  Returns none when the string does not
parse, mirroring the ValueError branch. -/
def parseDecimal (s : String) : Option Rat :=
  let (neg, body) :=
    match s.toList with
    | '-' :: rest => (true, rest)
    | '+' :: rest => (false, rest)
    | cs => (false, cs)
  let mk : Nat → Nat → Option Rat := fun m d =>
    some (mkRat (if neg then -(m : Int) else (m : Int)) d)
  match splitOnChar '.' body with
  | [ipc] =>
      if !ipc.isEmpty && ipc.all (·.isDigit) then mk (digitsToNat ipc) 1 else none
  | [ipc, fpc] =>
      if ipc.all (·.isDigit) && fpc.all (·.isDigit) && !(ipc.isEmpty && fpc.isEmpty) then
        mk (digitsToNat (ipc ++ fpc)) (10 ^ fpc.length)
      else none
  | _ => none

/-- Model of Python `float(v)`: numbers convert to themselves, strings
are parsed, None raises (modelled as none). -/
def pyFloat : RawVal → Option Rat
  | .null => none
  | .int n => some (n : Rat)
  | .num q => some q
  | .str s => parseDecimal s

/-- Smallest exponent k with d dividing 10 ^ k, when one exists below 31.
Used to render a float with finite decimal expansion the way Python
str() renders it. -/
def decExp (d : Nat) : Option Nat :=
  (List.range 31).find? (fun k => 10 ^ k % d == 0)

/-- Decimal rendering of a rational, matching Python str() on floats
whose value is an exact decimal (the only floats the embedded payloads
contain). -/
def pyStrNum (q : Rat) : String :=
  if q.den == 1 then toString q.num ++ ".0"
  else
    match decExp q.den with
    | some k =>
        let m := q.num.natAbs * 10 ^ k / q.den
        let ip := m / 10 ^ k
        let fr := m % 10 ^ k
        let frs := toString fr
        let pad := String.mk (List.replicate (k - frs.length) '0')
        (if q.num < 0 then "-" else "") ++ toString ip ++ "." ++ pad ++ frs
    | none => toString q.num ++ "/" ++ toString q.den

/-- Model of Python string interpolation of a raw scalar, as used when
building the identifier in nse_service._create_option_entry. -/
def pyStr : RawVal → String
  | .null => "None"
  | .int n => toString n
  | .num q => pyStrNum q
  | .str s => s

/-- models.OptionType: CALL is serialized "CE", PUT is serialized "PE". -/
inductive OptionType where
  | CALL
  | PUT
deriving DecidableEq, Repr

/-- The serialized enum value, models.OptionType.value. -/
def OptionType.value : OptionType → String
  | .CALL => "CE"
  | .PUT => "PE"

/-- models.OptionChainEntry after pydantic validation: identity fields
plus optional numeric market fields.  Numeric fields hold exact
rationals; fetched_at is an abstract timestamp. -/
structure OptionChainEntry where
  symbol : String
  type : OptionType
  strike_price : Rat
  expiry_date : String
  identifier : String
  fetched_at : Nat
  open_interest : Option Rat := none
  change_in_oi : Option Rat := none
  pchange_in_oi : Option Rat := none
  last_price : Option Rat := none
  change : Option Rat := none
  pchange : Option Rat := none
  total_traded_volume : Option Rat := none
  implied_volatility : Option Rat := none
  bid_qty : Option Rat := none
  bid_price : Option Rat := none
  ask_price : Option Rat := none
  ask_qty : Option Rat := none
  underlying_value : Option Rat := none
deriving DecidableEq, Repr

/-- One side (CE or PE) of a raw JSON row: the twelve upstream field
names of models.NSE_FIELD_MAPPING, each possibly absent. -/
structure RawSide where
  openInterest : Option RawVal := none
  changeinOpenInterest : Option RawVal := none
  pchangeinOpenInterest : Option RawVal := none
  lastPrice : Option RawVal := none
  change : Option RawVal := none
  pChange : Option RawVal := none
  totalTradedVolume : Option RawVal := none
  impliedVolatility : Option RawVal := none
  bidQty : Option RawVal := none
  bidprice : Option RawVal := none
  askPrice : Option RawVal := none
  askQty : Option RawVal := none
deriving DecidableEq, Repr

/-- One element of records.data in the raw JSON payload. -/
structure RawRecord where
  strikePrice : Option RawVal := none
  expiryDate : Option String := none
  CE : Option RawSide := none
  PE : Option RawSide := none
deriving DecidableEq, Repr

/-- The records object of the raw JSON payload. -/
structure RawPayload where
  data : List RawRecord
  underlyingValue : Option RawVal := none
deriving DecidableEq, Repr

/-- Composition applied to every mapped market field: the filter in
nse_service._create_option_entry drops None / "" / "-", then the
pydantic validators of models.OptionChainEntry turn the survivor into
float(v), returning None when conversion fails. -/
def coerceField (raw : Option RawVal) : Option Rat :=
  match raw with
  | none => none
  | some v =>
      if v = .null || v = .str "" || v = .str "-" then none
      else pyFloat v

/-- Pydantic coercion of the underlying_value argument, which has no
custom validator: Optional[float] accepts None and numbers, parses
strings with float(), and fails validation (the outer except returns
None for the whole entry) on an unparseable string. -/
def coerceUnderlying : Option RawVal → Option (Option Rat)
  | none => some none
  | some .null => some none
  | some (.int n) => some (some (n : Rat))
  | some (.num q) => some (some q)
  | some (.str s) => (parseDecimal s).map some

/-- nse_service.NSEDataFetcher._create_option_entry: builds the
identifier from the raw strike value, maps and filters the twelve
NSE_FIELD_MAPPING fields, and constructs the pydantic entry; any
exception (unparseable strike, invalid underlying value) yields None. -/
def create_option_entry (option_data : RawSide) (symbol : String)
    (option_type : OptionType) (strike_price : RawVal) (expiry_date : String)
    (underlying_value : Option RawVal) (fetched_at : Nat) :
    Option OptionChainEntry :=
  let identifier :=
    symbol ++ "_" ++ option_type.value ++ "_" ++ pyStr strike_price ++ "_" ++ expiry_date
  match pyFloat strike_price, coerceUnderlying underlying_value with
  | some sp, some uv =>
      some {
        symbol := symbol
        type := option_type
        strike_price := sp
        expiry_date := expiry_date
        identifier := identifier
        fetched_at := fetched_at
        open_interest := coerceField option_data.openInterest
        change_in_oi := coerceField option_data.changeinOpenInterest
        pchange_in_oi := coerceField option_data.pchangeinOpenInterest
        last_price := coerceField option_data.lastPrice
        change := coerceField option_data.change
        pchange := coerceField option_data.pChange
        total_traded_volume := coerceField option_data.totalTradedVolume
        implied_volatility := coerceField option_data.impliedVolatility
        bid_qty := coerceField option_data.bidQty
        bid_price := coerceField option_data.bidprice
        ask_price := coerceField option_data.askPrice
        ask_qty := coerceField option_data.askQty
        underlying_value := uv
      }
  | _, _ => none

/-- The contribution of one raw row to the two output lists in
nse_service.NSEDataFetcher.parse_option_chain: rows with a falsy strike
are skipped, otherwise each present side is turned into an entry. -/
def recordEntries (record : RawRecord) (symbol : String)
    (underlying_value : Option RawVal) (fetched_at : Nat) :
    Option OptionChainEntry × Option OptionChainEntry :=
  match record.strikePrice with
  | none => (none, none)
  | some sp =>
      if pyTruthy sp then
        let expiry := record.expiryDate.getD ""
        (record.CE.bind fun ce =>
           create_option_entry ce symbol .CALL sp expiry underlying_value fetched_at,
         record.PE.bind fun pe =>
           create_option_entry pe symbol .PUT sp expiry underlying_value fetched_at)
      else (none, none)

/-- nse_service.NSEDataFetcher.parse_option_chain: iterates the raw rows
accumulating call entries and put entries.  The fetched_at timestamp is
taken once before the loop in the source; here it is a parameter shared
by every produced entry. -/
def parse_option_chain (payload : RawPayload) (symbol : String)
    (fetched_at : Nat) : List OptionChainEntry × List OptionChainEntry :=
  (payload.data.filterMap fun r =>
      (recordEntries r symbol payload.underlyingValue fetched_at).1,
   payload.data.filterMap fun r =>
      (recordEntries r symbol payload.underlyingValue fetched_at).2)

/-- The static fallback payload returned by
nse_service.NSEDataFetcher._get_fallback_data, transcribed literally. -/
def fallbackData (_symbol : String) : RawPayload :=
  { data := [
      { strikePrice := some (.int 25000)
        expiryDate := some "30-Jan-2025"
        CE := some {
          openInterest := some (.int 1500)
          lastPrice := some (.num (mkRat 12575 100))
          change := some (.num (mkRat (-525) 100))
          pChange := some (.num (mkRat (-402) 100))
          totalTradedVolume := some (.int 8500)
          impliedVolatility := some (.num (mkRat 168 10))
          bidQty := some (.int 150)
          bidprice := some (.num (mkRat 1250 10))
          askPrice := some (.num (mkRat 1260 10))
          askQty := some (.int 200) }
        PE := some {
          openInterest := some (.int 2200)
          lastPrice := some (.num (mkRat 7550 100))
          change := some (.num (mkRat 325 100))
          pChange := some (.num (mkRat 449 100))
          totalTradedVolume := some (.int 12000)
          impliedVolatility := some (.num (mkRat 185 10))
          bidQty := some (.int 100)
          bidprice := some (.num (mkRat 750 10))
          askPrice := some (.num (mkRat 760 10))
          askQty := some (.int 175) } } ]
    underlyingValue := some (.num (mkRat 2507550 100)) }

/-- nse_service.NSEDataFetcher.fetch_option_chain, retry skeleton.  Each
list element is the outcome of one attempt (some payload on success,
none when the attempt raised); the source runs range(3) attempts, so the
list handed to this function has length 3.  On the last failed attempt
the source returns _get_fallback_data; with an empty attempt list the
trailing unreachable RuntimeError is modelled as the error value. -/
def fetchLoop (symbol : String) : List (Option RawPayload) → Except String RawPayload
  | [] => .error "Unexpected error in fetch_option_chain"
  | some d :: _ => .ok d
  | [none] => .ok (fallbackData symbol)
  | none :: rest => fetchLoop symbol rest

/-- fetch_option_chain with its three attempts. -/
def fetch_option_chain (attempts : List (Option RawPayload)) (symbol : String) :
    Except String RawPayload :=
  fetchLoop symbol attempts

/-- The dedup key enforced by the unique MongoDB index of
database_service.DatabaseService._setup_indexes: (identifier, fetched_at). -/
def entryKey (e : OptionChainEntry) : String × Nat :=
  (e.identifier, e.fetched_at)

/-- MongoDB insert_many with ordered=False over a store holding the
given dedup keys: every document whose key is not yet present is
inserted, duplicates are recorded as write errors.  Returns (number
inserted, number of duplicate errors, new key set). -/
def insertManyUnordered : List OptionChainEntry → List (String × Nat) →
    Nat × Nat × List (String × Nat)
  | [], keys => (0, 0, keys)
  | d :: rest, keys =>
      if entryKey d ∈ keys then
        ((insertManyUnordered rest keys).1,
         (insertManyUnordered rest keys).2.1 + 1,
         (insertManyUnordered rest keys).2.2)
      else
        ((insertManyUnordered rest (entryKey d :: keys)).1 + 1,
         (insertManyUnordered rest (entryKey d :: keys)).2.1,
         (insertManyUnordered rest (entryKey d :: keys)).2.2)

/-- database_service.DatabaseService._bulk_insert_with_dedup: empty input
returns zero counts; otherwise insert_many runs, and when duplicate-key
errors occurred the BulkWriteError branch reports inserted = nInserted
and skipped = len(documents) - nInserted, while the clean branch reports
skipped = 0. -/
def bulk_insert_with_dedup (options : List OptionChainEntry)
    (keys : List (String × Nat)) : (Nat × Nat) × List (String × Nat) :=
  if options.isEmpty then ((0, 0), keys)
  else
    (((insertManyUnordered options keys).1,
      if (insertManyUnordered options keys).2.1 = 0 then 0
      else options.length - (insertManyUnordered options keys).1),
     (insertManyUnordered options keys).2.2)

/-- The counter dictionary returned by DatabaseService.store_option_data. -/
structure StoreStats where
  calls_inserted : Nat := 0
  puts_inserted : Nat := 0
  calls_skipped : Nat := 0
  puts_skipped : Nat := 0
  total_processed : Nat := 0
deriving DecidableEq, Repr

/-- database_service.DatabaseService.store_option_data: bulk-inserts the
call entries then the put entries (each guarded by a non-empty check)
and assembles the counter dictionary. -/
def store_option_data (call_options put_options : List OptionChainEntry)
    (keys : List (String × Nat)) : StoreStats × List (String × Nat) :=
  let callRes :=
    if call_options.isEmpty then ((0, 0), keys)
    else bulk_insert_with_dedup call_options keys
  let putRes :=
    if put_options.isEmpty then ((0, 0), callRes.2)
    else bulk_insert_with_dedup put_options callRes.2
  ({ calls_inserted := callRes.1.1
     calls_skipped := callRes.1.2
     puts_inserted := putRes.1.1
     puts_skipped := putRes.1.2
     total_processed := call_options.length + put_options.length }, putRes.2)

/-- Maximum of a list of timestamps, none when the list is empty. -/
def maxFetched : List Nat → Option Nat
  | [] => none
  | t :: ts =>
      match maxFetched ts with
      | none => some t
      | some m => some (max t m)

/-- Largest fetched_at among the stored documents of a symbol, which is
what the descending-sort find_one of
database_service.DatabaseService.get_latest_option_data observes. -/
def latestTime (store : List OptionChainEntry) (symbol : String) : Option Nat :=
  maxFetched ((store.filter fun d => decide (d.symbol = symbol)).map fun d => d.fetched_at)

/-- Ordering by strike price used for the ascending sort of the result. -/
def strikeLE (a b : OptionChainEntry) : Prop :=
  a.strike_price ≤ b.strike_price

instance : DecidableRel strikeLE := fun a b =>
  inferInstanceAs (Decidable (a.strike_price ≤ b.strike_price))

instance : IsTotal OptionChainEntry strikeLE :=
  ⟨fun a b => le_total a.strike_price b.strike_price⟩

instance : IsTrans OptionChainEntry strikeLE :=
  ⟨fun _ _ _ hab hbc => le_trans hab hbc⟩

/-- database_service.DatabaseService.get_latest_option_data: with no
stored document for the symbol both lists are empty, otherwise each side
is the set of documents of that symbol, side and latest timestamp,
sorted ascending by strike price, truncated to the query limit. -/
def get_latest_option_data (store : List OptionChainEntry) (symbol : String)
    (limit : Nat) : List OptionChainEntry × List OptionChainEntry :=
  match latestTime store symbol with
  | none => ([], [])
  | some t =>
      ((List.insertionSort strikeLE (store.filter fun d =>
          decide (d.symbol = symbol ∧ d.type = OptionType.CALL ∧ d.fetched_at = t))).take limit,
       (List.insertionSort strikeLE (store.filter fun d =>
          decide (d.symbol = symbol ∧ d.type = OptionType.PUT ∧ d.fetched_at = t))).take limit)

/-- The per-symbol cycle result dictionary built by
data_pipeline.DataPipeline.run_single_cycle (success flag and, on the
exception path, the error message). -/
structure CycleResult where
  symbol : String
  success : Bool
  error : Option String := none
deriving DecidableEq, Repr

/-- The statistics fields of data_pipeline.DataPipeline mutated by
run_single_cycle. -/
structure PipelineState where
  total_calls_inserted : Nat := 0
  total_puts_inserted : Nat := 0
  total_calls_skipped : Nat := 0
  total_puts_skipped : Nat := 0
  last_successful_fetch : Option Nat := none
deriving DecidableEq, Repr

/-- The result dictionary of one cycle: success with the storage stats,
or the caught exception converted to a failure result. -/
def cycleResult (symbol : String) (outcome : Except String StoreStats) : CycleResult :=
  match outcome with
  | .ok _ => { symbol := symbol, success := true }
  | .error e => { symbol := symbol, success := false, error := some e }

/-- data_pipeline.DataPipeline.run_single_cycle as a state transition.
The outcome argument is the result of the try body (fetch_and_parse
followed by store_option_data): ok with the storage stats when every
step succeeded, error with the exception message otherwise.  On success
the cumulative counters are advanced and last_successful_fetch is set to
the current time; the except branch touches no state. -/
def run_single_cycle (st : PipelineState) (symbol : String) (now : Nat)
    (outcome : Except String StoreStats) : PipelineState × CycleResult :=
  match outcome with
  | .ok s =>
      ({ st with
          total_calls_inserted := st.total_calls_inserted + s.calls_inserted
          total_puts_inserted := st.total_puts_inserted + s.puts_inserted
          total_calls_skipped := st.total_calls_skipped + s.calls_skipped
          total_puts_skipped := st.total_puts_skipped + s.puts_skipped
          last_successful_fetch := some now },
       cycleResult symbol outcome)
  | .error _ => (st, cycleResult symbol outcome)

/-- One tick of data_pipeline.DataPipeline.run_continuous: the configured
symbols are iterated in order, each running its own cycle; a failed
cycle yields a failure result and the loop proceeds to the next symbol.
The outcomes function gives each symbol the result of its try body. -/
def runTick (st : PipelineState) (symbols : List String) (now : Nat)
    (outcomes : String → Except String StoreStats) :
    PipelineState × List CycleResult :=
  symbols.foldl
    (fun acc sym =>
      ((run_single_cycle acc.1 sym now (outcomes sym)).1,
       acc.2 ++ [(run_single_cycle acc.1 sym now (outcomes sym)).2]))
    (st, [])

/-- A cell of the pandas DataFrame obtained from the option-chain CSV:
missing (NaN), a string, or a parsed number. -/
inductive CellVal where
  | nan
  | str (s : String)
  | num (q : Rat)
deriving DecidableEq, Repr

/-- The string cleanup in
nse_option_chain_pipeline.OptionChainParser._create_option_document:
value.replace with empty string for commas and double quotes. -/
def cleanNumStr (s : String) : String :=
  String.mk (s.toList.filter fun c => c ≠ ',' && c ≠ '"')

/-- A value stored in a CSV-path MongoDB document. -/
inductive DocVal where
  | num (q : Rat)
  | str (s : String)
  | time (t : Nat)
deriving DecidableEq, Repr

/-- Lookup of a CSV column in a row (row.index membership plus access). -/
def lookupCell (row : List (String × CellVal)) (col : String) : Option CellVal :=
  (row.find? fun p => p.1 == col).map fun p => p.2

/-- The per-cell logic of _create_option_document: NaN, "" and "-" are
dropped; a string is cleaned and converted with float(), and when the
conversion fails the cleaned string itself is stored; numbers are stored
as they are. -/
def csvFieldValue (cell : Option CellVal) : Option DocVal :=
  match cell with
  | none => none
  | some .nan => none
  | some (.str s) =>
      if s = "" || s = "-" then none
      else
        match parseDecimal (cleanNumStr s) with
        | some q => some (.num q)
        | none => some (.str (cleanNumStr s))
  | some (.num q) => some (.num q)

/-- The document assembled by _create_option_document before the size
guard: the four identity fields then the mapped market columns that
carry data. -/
def csvDocFields (row : List (String × CellVal))
    (column_mapping : List (String × String)) (symbol option_type : String)
    (strike_price : Rat) (fetched_at : Nat) : List (String × DocVal) :=
  [("symbol", .str symbol), ("type", .str option_type),
   ("strike_price", .num strike_price), ("fetched_at", .time fetched_at)]
  ++ column_mapping.filterMap fun p =>
      (csvFieldValue (lookupCell row p.1)).map fun dv => (p.2, dv)

/-- nse_option_chain_pipeline.OptionChainParser._create_option_document:
base identity fields plus the mapped market columns that carry data; the
document is only returned when it has more than the four base fields. -/
def create_option_document (row : List (String × CellVal))
    (column_mapping : List (String × String)) (symbol option_type : String)
    (strike_price : Rat) (fetched_at : Nat) : Option (List (String × DocVal)) :=
  if 4 < (csvDocFields row column_mapping symbol option_type strike_price fetched_at).length
  then some (csvDocFields row column_mapping symbol option_type strike_price fetched_at)
  else none

/-- The CALL-side column mapping of OptionChainParser._transform_to_documents. -/
def call_columns : List (String × String) :=
  [("OI", "open_interest"), ("CHNG IN OI", "change_in_oi"),
   ("VOLUME", "volume"), ("IV", "implied_volatility"),
   ("LTP", "last_traded_price"), ("CHNG", "change"),
   ("BID QTY", "bid_qty"), ("BID", "bid_price"),
   ("ASK", "ask_price"), ("ASK QTY", "ask_qty")]

/-- The PUT-side column mapping of OptionChainParser._transform_to_documents. -/
def put_columns : List (String × String) :=
  [("BID QTY.1", "bid_qty"), ("BID.1", "bid_price"),
   ("ASK.1", "ask_price"), ("ASK QTY.1", "ask_qty"),
   ("CHNG.1", "change"), ("LTP.1", "last_traded_price"),
   ("IV.1", "implied_volatility"), ("VOLUME.1", "volume"),
   ("CHNG IN OI.1", "change_in_oi"), ("OI.1", "open_interest")]

/-! ### Lemmas about the storage layer -/

theorem insertMany_count (docs : List OptionChainEntry) (keys : List (String × Nat)) :
    (insertManyUnordered docs keys).1 + (insertManyUnordered docs keys).2.1 = docs.length := by
  induction docs generalizing keys with
  | nil => rfl
  | cons d rest ih =>
      by_cases h : entryKey d ∈ keys
      · simp only [insertManyUnordered, if_pos h, List.length_cons]
        have := ih keys
        omega
      · simp only [insertManyUnordered, if_neg h, List.length_cons]
        have := ih (entryKey d :: keys)
        omega

theorem insertMany_fresh (docs : List OptionChainEntry) (keys : List (String × Nat))
    (hnd : (docs.map entryKey).Nodup) (hfresh : ∀ r ∈ docs, entryKey r ∉ keys) :
    (insertManyUnordered docs keys).1 = docs.length ∧
    (insertManyUnordered docs keys).2.1 = 0 := by
  induction docs generalizing keys with
  | nil => exact ⟨rfl, rfl⟩
  | cons d rest ih =>
      have hd : entryKey d ∉ keys := hfresh d (List.mem_cons_self d rest)
      simp only [List.map_cons, List.nodup_cons] at hnd
      have hrest : ∀ r ∈ rest, entryKey r ∉ entryKey d :: keys := by
        intro r hr
        simp only [List.mem_cons]
        push_neg
        refine ⟨?_, hfresh r (List.mem_cons_of_mem d hr)⟩
        intro hEq
        exact hnd.1 (hEq ▸ List.mem_map_of_mem entryKey hr)
      have := ih (entryKey d :: keys) hnd.2 hrest
      simp only [insertManyUnordered, if_neg hd, List.length_cons]
      exact ⟨by rw [this.1], this.2⟩

theorem insertMany_keys_mono (docs : List OptionChainEntry) (keys : List (String × Nat))
    (k : String × Nat) (hk : k ∈ keys) : k ∈ (insertManyUnordered docs keys).2.2 := by
  induction docs generalizing keys with
  | nil => exact hk
  | cons d rest ih =>
      by_cases h : entryKey d ∈ keys
      · simp only [insertManyUnordered, if_pos h]
        exact ih keys hk
      · simp only [insertManyUnordered, if_neg h]
        exact ih (entryKey d :: keys) (List.mem_cons_of_mem _ hk)

theorem insertMany_keys_docs (docs : List OptionChainEntry) :
    ∀ (keys : List (String × Nat)) (r : OptionChainEntry), r ∈ docs →
      entryKey r ∈ (insertManyUnordered docs keys).2.2 := by
  induction docs with
  | nil => intro _ _ hr; cases hr
  | cons d rest ih =>
      intro keys r hr
      by_cases h : entryKey d ∈ keys
      · simp only [insertManyUnordered, if_pos h]
        rcases List.mem_cons.mp hr with hEq | hmem
        · exact hEq ▸ insertMany_keys_mono rest keys _ h
        · exact ih keys r hmem
      · simp only [insertManyUnordered, if_neg h]
        rcases List.mem_cons.mp hr with hEq | hmem
        · exact hEq ▸ insertMany_keys_mono rest _ _ (List.mem_cons_self _ _)
        · exact ih (entryKey d :: keys) r hmem

theorem insertMany_all_dup (docs : List OptionChainEntry) (keys : List (String × Nat))
    (hdup : ∀ r ∈ docs, entryKey r ∈ keys) :
    insertManyUnordered docs keys = (0, docs.length, keys) := by
  induction docs with
  | nil => rfl
  | cons d rest ih =>
      have hd : entryKey d ∈ keys := hdup d (List.mem_cons_self d rest)
      have hrest := ih fun r hr => hdup r (List.mem_cons_of_mem d hr)
      simp only [insertManyUnordered, if_pos hd, hrest, List.length_cons]

theorem bulk_insert_count (docs : List OptionChainEntry) (keys : List (String × Nat)) :
    (bulk_insert_with_dedup docs keys).1.1 + (bulk_insert_with_dedup docs keys).1.2
      = docs.length := by
  by_cases hemp : docs.isEmpty = true
  · have : docs = [] := List.isEmpty_iff.mp hemp
    subst this
    rfl
  · simp only [bulk_insert_with_dedup, if_neg hemp]
    have hc := insertMany_count docs keys
    by_cases hz : (insertManyUnordered docs keys).2.1 = 0
    · rw [hz] at hc
      simp only [if_pos hz]
      omega
    · simp only [if_neg hz]
      omega

/-- C1: a batch of records with pairwise distinct dedup keys, none of
which is already in the store, is fully inserted with zero skips by the
first store call; repeating the identical call then inserts nothing and
skips the whole batch, the duplicate-key violations being absorbed into
the skip counter by the BulkWriteError branch rather than raised. -/
theorem store_twice_fresh_then_duplicate (records : List OptionChainEntry)
    (keys : List (String × Nat))
    (hnd : (records.map entryKey).Nodup)
    (hfresh : ∀ r ∈ records, entryKey r ∉ keys) :
    (bulk_insert_with_dedup records keys).1 = (records.length, 0) ∧
    (bulk_insert_with_dedup records (bulk_insert_with_dedup records keys).2).1
      = (0, records.length) := by
  by_cases hemp : records.isEmpty = true
  · have : records = [] := List.isEmpty_iff.mp hemp
    subst this
    exact ⟨rfl, rfl⟩
  · have h1 := insertMany_fresh records keys hnd hfresh
    have hlen : records.length ≠ 0 := by
      intro h
      rw [List.isEmpty_iff, ← List.length_eq_zero] at hemp
      exact hemp h
    constructor
    · simp only [bulk_insert_with_dedup, if_neg hemp, h1.1, h1.2]
      simp
    · have hks : ∀ r ∈ records,
          entryKey r ∈ (bulk_insert_with_dedup records keys).2 := by
        intro r hr
        simp only [bulk_insert_with_dedup, if_neg hemp]
        exact insertMany_keys_docs records keys r hr
      have h2 := insertMany_all_dup records _ hks
      simp only [bulk_insert_with_dedup, if_neg hemp] at h2 ⊢
      rw [h2]
      simp only [if_neg hlen, Nat.sub_zero]

/-- Concrete instantiation of store_twice_fresh_then_duplicate on a
two-record batch over an empty store. -/
theorem store_twice_fresh_then_duplicate_witness :
    (bulk_insert_with_dedup
        [{ symbol := "NIFTY", type := .CALL, strike_price := 100, expiry_date := "E",
           identifier := "NIFTY_CE_100_E", fetched_at := 5 },
         { symbol := "NIFTY", type := .PUT, strike_price := 100, expiry_date := "E",
           identifier := "NIFTY_PE_100_E", fetched_at := 5 }] []).1 = (2, 0) ∧
    (bulk_insert_with_dedup
        [{ symbol := "NIFTY", type := .CALL, strike_price := 100, expiry_date := "E",
           identifier := "NIFTY_CE_100_E", fetched_at := 5 },
         { symbol := "NIFTY", type := .PUT, strike_price := 100, expiry_date := "E",
           identifier := "NIFTY_PE_100_E", fetched_at := 5 }]
      (bulk_insert_with_dedup
        [{ symbol := "NIFTY", type := .CALL, strike_price := 100, expiry_date := "E",
           identifier := "NIFTY_CE_100_E", fetched_at := 5 },
         { symbol := "NIFTY", type := .PUT, strike_price := 100, expiry_date := "E",
           identifier := "NIFTY_PE_100_E", fetched_at := 5 }] []).2).1 = (0, 2) := by
  have h := store_twice_fresh_then_duplicate
    [{ symbol := "NIFTY", type := .CALL, strike_price := 100, expiry_date := "E",
       identifier := "NIFTY_CE_100_E", fetched_at := 5 },
     { symbol := "NIFTY", type := .PUT, strike_price := 100, expiry_date := "E",
       identifier := "NIFTY_PE_100_E", fetched_at := 5 }] []
    (by decide) (by decide)
  simpa using h

/-- C10: the counters returned by store_option_data always satisfy
inserted + skipped = batch size on each side, total_processed is the
combined batch size, and the empty store call returns all-zero counters
leaving the store untouched. -/
theorem store_counters_sum :
    (∀ (calls puts : List OptionChainEntry) (keys : List (String × Nat)),
        (store_option_data calls puts keys).1.calls_inserted
          + (store_option_data calls puts keys).1.calls_skipped = calls.length ∧
        (store_option_data calls puts keys).1.puts_inserted
          + (store_option_data calls puts keys).1.puts_skipped = puts.length ∧
        (store_option_data calls puts keys).1.total_processed
          = calls.length + puts.length) ∧
    (∀ keys : List (String × Nat),
        store_option_data [] [] keys =
          ({ calls_inserted := 0, puts_inserted := 0, calls_skipped := 0,
             puts_skipped := 0, total_processed := 0 }, keys)) := by
  constructor
  · intro calls puts keys
    refine ⟨?_, ?_, rfl⟩
    · by_cases hc : calls.isEmpty = true
      · have : calls = [] := List.isEmpty_iff.mp hc
        subst this
        rfl
      · simp only [store_option_data, if_neg hc]
        exact bulk_insert_count calls keys
    · by_cases hp : puts.isEmpty = true
      · have : puts = [] := List.isEmpty_iff.mp hp
        subst this
        rfl
      · simp only [store_option_data, if_neg hp]
        exact bulk_insert_count puts _
  · intro keys
    rfl

/-! ### Lemmas about the latest-snapshot query -/

theorem maxFetched_cons_isSome (t : Nat) (ts : List Nat) :
    ∃ m, maxFetched (t :: ts) = some m := by
  cases h : maxFetched ts with
  | none => exact ⟨t, by simp [maxFetched, h]⟩
  | some m => exact ⟨max t m, by simp [maxFetched, h]⟩

theorem maxFetched_le (l : List Nat) : ∀ m, maxFetched l = some m → ∀ x ∈ l, x ≤ m := by
  induction l with
  | nil => intro m _ x hx; cases hx
  | cons t ts ih =>
      intro m hm x hx
      cases hts : maxFetched ts with
      | none =>
          rw [maxFetched, hts] at hm
          have hnil : ts = [] := by
            cases ts with
            | nil => rfl
            | cons a l =>
                obtain ⟨m2, hm2⟩ := maxFetched_cons_isSome a l
                rw [hm2] at hts
                cases hts
          subst hnil
          rcases List.mem_cons.mp hx with rfl | hmem
          · exact le_of_eq (Option.some.inj hm)
          · cases hmem
      | some mm =>
          rw [maxFetched, hts] at hm
          have hmx : max t mm = m := Option.some.inj hm
          rcases List.mem_cons.mp hx with rfl | hmem
          · exact hmx ▸ le_max_left x mm
          · exact le_trans (ih mm hts x hmem) (hmx ▸ le_max_right t mm)

theorem latestTime_le (st : List OptionChainEntry) (sym : String) (tmax : Nat)
    (ht : latestTime st sym = some tmax) :
    ∀ d ∈ st, d.symbol = sym → d.fetched_at ≤ tmax := by
  intro d hd hsym
  refine maxFetched_le _ tmax ht d.fetched_at ?_
  exact List.mem_map_of_mem _ (List.mem_filter.mpr ⟨hd, decide_eq_true hsym⟩)

/-- C5 amended: when a symbol has stored records (so the latest
timestamp exists), each side of get_latest_option_data is sorted
ascending by strike price, contains only documents of that symbol and
side whose fetched_at equals the maximum fetched_at (so no older record
is ever included), has the length of the matching set capped at the
query limit, and is exactly the matching set (as a permutation)
whenever that set fits inside the limit. -/
theorem get_latest_option_data_spec (st : List OptionChainEntry) (sym : String)
    (limit tmax : Nat) (ht : latestTime st sym = some tmax) :
    (∀ d ∈ st, d.symbol = sym → d.fetched_at ≤ tmax) ∧
    List.Sorted strikeLE (get_latest_option_data st sym limit).1 ∧
    List.Sorted strikeLE (get_latest_option_data st sym limit).2 ∧
    (∀ d ∈ (get_latest_option_data st sym limit).1,
        d.symbol = sym ∧ d.type = OptionType.CALL ∧ d.fetched_at = tmax) ∧
    (∀ d ∈ (get_latest_option_data st sym limit).2,
        d.symbol = sym ∧ d.type = OptionType.PUT ∧ d.fetched_at = tmax) ∧
    (get_latest_option_data st sym limit).1.length =
      min limit (st.filter fun d =>
        decide (d.symbol = sym ∧ d.type = OptionType.CALL ∧ d.fetched_at = tmax)).length ∧
    (get_latest_option_data st sym limit).2.length =
      min limit (st.filter fun d =>
        decide (d.symbol = sym ∧ d.type = OptionType.PUT ∧ d.fetched_at = tmax)).length ∧
    ((st.filter fun d =>
        decide (d.symbol = sym ∧ d.type = OptionType.CALL ∧ d.fetched_at = tmax)).length ≤ limit →
      (get_latest_option_data st sym limit).1.Perm
        (st.filter fun d =>
          decide (d.symbol = sym ∧ d.type = OptionType.CALL ∧ d.fetched_at = tmax))) ∧
    ((st.filter fun d =>
        decide (d.symbol = sym ∧ d.type = OptionType.PUT ∧ d.fetched_at = tmax)).length ≤ limit →
      (get_latest_option_data st sym limit).2.Perm
        (st.filter fun d =>
          decide (d.symbol = sym ∧ d.type = OptionType.PUT ∧ d.fetched_at = tmax))) := by
  have hu : get_latest_option_data st sym limit =
      ((List.insertionSort strikeLE (st.filter fun d =>
          decide (d.symbol = sym ∧ d.type = OptionType.CALL ∧ d.fetched_at = tmax))).take limit,
       (List.insertionSort strikeLE (st.filter fun d =>
          decide (d.symbol = sym ∧ d.type = OptionType.PUT ∧ d.fetched_at = tmax))).take limit) := by
    simp only [get_latest_option_data, ht]
  refine ⟨latestTime_le st sym tmax ht, ?_, ?_, ?_, ?_, ?_, ?_, ?_, ?_⟩
  · rw [hu]
    exact (List.sorted_insertionSort strikeLE _).take
  · rw [hu]
    exact (List.sorted_insertionSort strikeLE _).take
  · intro d hd
    rw [hu] at hd
    have := List.take_subset _ _ hd
    rw [List.mem_insertionSort] at this
    exact of_decide_eq_true (List.mem_filter.mp this).2
  · intro d hd
    rw [hu] at hd
    have := List.take_subset _ _ hd
    rw [List.mem_insertionSort] at this
    exact of_decide_eq_true (List.mem_filter.mp this).2
  · rw [hu]
    simp [List.length_take, List.length_insertionSort]
  · rw [hu]
    simp [List.length_take, List.length_insertionSort]
  · intro hc
    rw [hu]
    have : (List.insertionSort strikeLE (st.filter fun d =>
        decide (d.symbol = sym ∧ d.type = OptionType.CALL ∧ d.fetched_at = tmax))).take limit
        = List.insertionSort strikeLE (st.filter fun d =>
            decide (d.symbol = sym ∧ d.type = OptionType.CALL ∧ d.fetched_at = tmax)) :=
      List.take_of_length_le (by rw [List.length_insertionSort]; exact hc)
    rw [this]
    exact List.perm_insertionSort strikeLE _
  · intro hp
    rw [hu]
    have : (List.insertionSort strikeLE (st.filter fun d =>
        decide (d.symbol = sym ∧ d.type = OptionType.PUT ∧ d.fetched_at = tmax))).take limit
        = List.insertionSort strikeLE (st.filter fun d =>
            decide (d.symbol = sym ∧ d.type = OptionType.PUT ∧ d.fetched_at = tmax)) :=
      List.take_of_length_le (by rw [List.length_insertionSort]; exact hp)
    rw [this]
    exact List.perm_insertionSort strikeLE _

/-- A fixed latest-snapshot store used to instantiate the query theorem:
one stale CALL at time 1 and a CALL, CALL, PUT snapshot at time 2. -/
def latestStoreW : List OptionChainEntry :=
  [{ symbol := "NIFTY", type := .CALL, strike_price := 200, expiry_date := "E",
     identifier := "NIFTY_CE_200_E", fetched_at := 1 },
   { symbol := "NIFTY", type := .CALL, strike_price := 200, expiry_date := "E",
     identifier := "NIFTY_CE_200_E", fetched_at := 2 },
   { symbol := "NIFTY", type := .CALL, strike_price := 100, expiry_date := "E",
     identifier := "NIFTY_CE_100_E", fetched_at := 2 },
   { symbol := "NIFTY", type := .PUT, strike_price := 100, expiry_date := "E",
     identifier := "NIFTY_PE_100_E", fetched_at := 2 }]

/-- Concrete instantiation of get_latest_option_data_spec on a
four-document store whose latest timestamp is 2 and fits the limit. -/
theorem get_latest_option_data_spec_witness :
    (∀ d ∈ latestStoreW, d.symbol = "NIFTY" → d.fetched_at ≤ 2) ∧
    List.Sorted strikeLE (get_latest_option_data latestStoreW "NIFTY" 10).1 ∧
    (get_latest_option_data latestStoreW "NIFTY" 10).1.Perm
      (latestStoreW.filter fun d =>
        decide (d.symbol = "NIFTY" ∧ d.type = OptionType.CALL ∧ d.fetched_at = 2)) ∧
    (get_latest_option_data latestStoreW "NIFTY" 10).2.Perm
      (latestStoreW.filter fun d =>
        decide (d.symbol = "NIFTY" ∧ d.type = OptionType.PUT ∧ d.fetched_at = 2)) := by
  have h := get_latest_option_data_spec latestStoreW "NIFTY" 10 2 (by decide)
  exact ⟨h.1, h.2.1, h.2.2.2.2.2.2.2.1 (by decide), h.2.2.2.2.2.2.2.2 (by decide)⟩

/-- A store holding two CALL documents that both carry the maximum
timestamp, used to exhibit truncation by the query limit. -/
def overLimitStoreW : List OptionChainEntry :=
  [{ symbol := "NIFTY", type := .CALL, strike_price := 100, expiry_date := "E",
     identifier := "NIFTY_CE_100_E", fetched_at := 2 },
   { symbol := "NIFTY", type := .CALL, strike_price := 200, expiry_date := "E",
     identifier := "NIFTY_CE_200_E", fetched_at := 2 }]

/-- C5 counterexample: two stored CALL documents share the maximum
fetched_at, yet a query whose limit is 1 returns only one of them, so
the result is not exactly the set of maximum-timestamp records. -/
theorem latest_snapshot_truncated_cex :
    latestTime overLimitStoreW "NIFTY" = some 2 ∧
    (overLimitStoreW.filter fun d =>
      decide (d.symbol = "NIFTY" ∧ d.type = OptionType.CALL ∧ d.fetched_at = 2)).length = 2 ∧
    (get_latest_option_data overLimitStoreW "NIFTY" 1).1.length = 1 := by
  decide

/-! ### Lemmas about the orchestrator loop -/

theorem run_single_cycle_snd (st : PipelineState) (sym : String) (now : Nat)
    (o : Except String StoreStats) :
    (run_single_cycle st sym now o).2 = cycleResult sym o := by
  cases o <;> rfl

theorem runTick_results (st : PipelineState) (symbols : List String) (now : Nat)
    (f : String → Except String StoreStats) :
    (runTick st symbols now f).2 = symbols.map fun s => cycleResult s (f s) := by
  have key : ∀ (syms : List String) (st0 : PipelineState) (acc : List CycleResult),
      (syms.foldl (fun acc sym =>
          ((run_single_cycle acc.1 sym now (f sym)).1,
           acc.2 ++ [(run_single_cycle acc.1 sym now (f sym)).2])) (st0, acc)).2
        = acc ++ syms.map fun s => cycleResult s (f s) := by
    intro syms
    induction syms with
    | nil => intro st0 acc; simp
    | cons s rest ih =>
        intro st0 acc
        simp only [List.foldl_cons, List.map_cons]
        rw [ih, run_single_cycle_snd]
        simp
  simpa [runTick] using key symbols st []

/-- C6: in a tick, every configured symbol produces exactly one cycle
result determined by its own outcome alone, so a failure while
processing one symbol does not remove or alter the cycle of any other
symbol; an exception outcome is converted into a result with success
false carrying the error message, and never escapes runTick, which is a
total function. -/
theorem cycle_errors_confined :
    (∀ (st : PipelineState) (symbols : List String) (now : Nat)
        (outcomes : String → Except String StoreStats),
        (runTick st symbols now outcomes).2
          = symbols.map fun s => cycleResult s (outcomes s)) ∧
    (∀ (s e : String),
        cycleResult s (.error e)
          = { symbol := s, success := false, error := some e }) ∧
    (∀ (s : String) (stats : StoreStats),
        cycleResult s (.ok stats)
          = { symbol := s, success := true, error := none }) :=
  ⟨runTick_results, fun _ _ => rfl, fun _ _ => rfl⟩

/-- C8: the exception branch of a cycle leaves the whole pipeline state,
in particular last_successful_fetch, unchanged; the success branch,
which is reached exactly when the store operation succeeded, sets
last_successful_fetch to the current time. -/
theorem last_successful_fetch_rule :
    (∀ (st : PipelineState) (sym : String) (now : Nat) (e : String),
        (run_single_cycle st sym now (.error e)).1 = st) ∧
    (∀ (st : PipelineState) (sym : String) (now : Nat) (s : StoreStats),
        ((run_single_cycle st sym now (.ok s)).1).last_successful_fetch = some now) :=
  ⟨fun _ _ _ _ => rfl, fun _ _ _ _ => rfl⟩

/-! ### The end-to-end single-row scenario -/

/-- The one-row JSON payload of the end-to-end scenario: strike 25000,
expiry 30-Jan-2025, CE.lastPrice 125.75, PE.lastPrice 75.50. -/
def scenarioPayload : RawPayload :=
  { data := [
      { strikePrice := some (.int 25000)
        expiryDate := some "30-Jan-2025"
        CE := some { lastPrice := some (.num (mkRat 12575 100)) }
        PE := some { lastPrice := some (.num (mkRat 7550 100)) } } ] }

/-- C9: normalizing the one-row scenario payload for NIFTY produces
exactly one CALL record with lastPrice 125.75 and identifier
NIFTY_CE_25000_30-Jan-2025, and exactly one PUT record with lastPrice
75.50 and identifier NIFTY_PE_25000_30-Jan-2025, both carrying the
shared cycle timestamp. -/
theorem scenario_single_row :
    parse_option_chain scenarioPayload "NIFTY" 7 =
      ([{ symbol := "NIFTY", type := .CALL, strike_price := 25000,
          expiry_date := "30-Jan-2025", identifier := "NIFTY_CE_25000_30-Jan-2025",
          fetched_at := 7, last_price := some (mkRat 12575 100) }],
       [{ symbol := "NIFTY", type := .PUT, strike_price := 25000,
          expiry_date := "30-Jan-2025", identifier := "NIFTY_PE_25000_30-Jan-2025",
          fetched_at := 7, last_price := some (mkRat 7550 100) }]) := by
  decide

/-! ### The fetcher fallback policy -/

/-- C2 counterexample: when all three attempts fail the fetcher does not
return a FetchError: it answers with the static fallback payload, with
no configuration flag consulted. -/
theorem fetch_exhausted_cex :
    fetch_option_chain [none, none, none] "NIFTY" = .ok (fallbackData "NIFTY") ∧
    (fetch_option_chain [none, none, none] "NIFTY").isOk = true :=
  ⟨rfl, rfl⟩

/-- C2 amended: exhausting all three attempts makes the fetcher
substitute the static fallback dataset unconditionally, and a
three-attempt fetch never surfaces an error to the caller. -/
theorem fetch_exhausted_unconditional_fallback :
    (∀ sym : String,
        fetch_option_chain [none, none, none] sym = .ok (fallbackData sym)) ∧
    (∀ (attempts : List (Option RawPayload)) (sym : String), attempts.length = 3 →
        (fetch_option_chain attempts sym).isOk = true) := by
  constructor
  · intro sym
    rfl
  · intro attempts sym hlen
    obtain ⟨a, b, c, rfl⟩ := List.length_eq_three.mp hlen
    cases a <;> cases b <;> cases c <;> rfl

/-- Concrete instantiation of fetch_exhausted_unconditional_fallback on
a run whose second attempt succeeds. -/
theorem fetch_exhausted_unconditional_fallback_witness :
    (fetch_option_chain [none, some (fallbackData "X"), none] "X").isOk = true :=
  fetch_exhausted_unconditional_fallback.2 [none, some (fallbackData "X"), none] "X" rfl

/-! ### Numeric-field normalization -/

theorem create_option_entry_fields (side : RawSide) (sym : String)
    (ot : OptionType) (sp : RawVal) (ex : String) (uv : Option RawVal) (t : Nat)
    (e : OptionChainEntry)
    (he : create_option_entry side sym ot sp ex uv t = some e) :
    e.last_price = coerceField side.lastPrice ∧
    e.open_interest = coerceField side.openInterest := by
  unfold create_option_entry at he
  cases hsp : pyFloat sp with
  | none =>
      rw [hsp] at he
      simp at he
  | some q =>
      cases huv : coerceUnderlying uv with
      | none =>
          rw [hsp, huv] at he
          simp at he
      | some u =>
          rw [hsp, huv] at he
          simp only [Option.some.injEq] at he
          rw [← he]
          exact ⟨rfl, rfl⟩

theorem create_option_entry_bad_strike (side : RawSide) (sym : String)
    (ot : OptionType) (sp : RawVal) (ex : String) (uv : Option RawVal) (t : Nat)
    (h : pyFloat sp = none) :
    create_option_entry side sym ot sp ex uv t = none := by
  unfold create_option_entry
  rw [h]

/-- C3 counterexample: a CSV cell holding the unparseable string 12a is
not dropped by the document builder: the cleaned raw string itself is
stored as the field value. -/
theorem csv_unparseable_stored_cex :
    create_option_document [("LTP", CellVal.str "12a")] call_columns
        "NIFTY" "CALL" 100 0 =
      some [("symbol", .str "NIFTY"), ("type", .str "CALL"),
            ("strike_price", .num 100), ("fetched_at", .time 0),
            ("last_traded_price", .str "12a")] := by
  decide

/-- C3 amended: every market field of a produced OptionChainEntry is the
image of the raw value under the filter-plus-validator composition,
which maps None, the empty string, the dash and every unparseable value
to absent; in the CSV document path missing, NaN, empty and dash cells
are likewise absent, while an unparseable string is stored as the
cleaned string rather than absent. -/
theorem blank_numeric_fields_absent :
    (∀ (side : RawSide) (sym : String) (ot : OptionType) (sp : RawVal)
        (ex : String) (uv : Option RawVal) (t : Nat) (e : OptionChainEntry),
        create_option_entry side sym ot sp ex uv t = some e →
        e.last_price = coerceField side.lastPrice ∧
        e.open_interest = coerceField side.openInterest) ∧
    (∀ v : RawVal, pyFloat v = none → coerceField (some v) = none) ∧
    coerceField none = none ∧
    csvFieldValue none = none ∧
    csvFieldValue (some .nan) = none ∧
    csvFieldValue (some (.str "")) = none ∧
    csvFieldValue (some (.str "-")) = none := by
  refine ⟨create_option_entry_fields, ?_, rfl, rfl, rfl, by decide, by decide⟩
  intro v hv
  simp only [coerceField]
  split
  · rfl
  · exact hv

/-- Concrete instantiation of blank_numeric_fields_absent: an entry
built from the unparseable raw price zz has its last_price absent. -/
theorem blank_numeric_fields_absent_witness :
    ({ symbol := "S", type := OptionType.CALL, strike_price := 1,
       expiry_date := "E", identifier := "S_CE_1_E", fetched_at := 0 } :
        OptionChainEntry).last_price
      = coerceField ({ lastPrice := some (.str "zz") } : RawSide).lastPrice ∧
    coerceField (some (RawVal.str "zz")) = none :=
  ⟨(blank_numeric_fields_absent.1 { lastPrice := some (.str "zz") } "S"
      OptionType.CALL (.int 1) "E" none 0
      { symbol := "S", type := OptionType.CALL, strike_price := 1,
        expiry_date := "E", identifier := "S_CE_1_E", fetched_at := 0 }
      (by decide)).1,
   blank_numeric_fields_absent.2.1 (RawVal.str "zz") (by decide)⟩

/-! ### The sparse-row guard -/

/-- A raw row whose CE sub-object is present but carries no field. -/
def sparsePayload : RawPayload :=
  { data := [
      { strikePrice := some (.int 100)
        expiryDate := some "30-Jan-2025"
        CE := some {} } ] }

/-- C4 counterexample: the JSON parser emits a CALL record for a row
whose CE sub-object has no market field at all: the produced entry has
every market field absent. -/
theorem sparse_row_emits_record_cex :
    (parse_option_chain sparsePayload "NIFTY" 0).1 =
      [{ symbol := "NIFTY", type := .CALL, strike_price := 100,
         expiry_date := "30-Jan-2025", identifier := "NIFTY_CE_100_30-Jan-2025",
         fetched_at := 0 }] := by
  decide

/-- C4 amended: the emit-only-with-data guard exists in the CSV document
path alone: a CSV document is returned only when it carries a field
beyond the four identity fields, and a row whose mapped cells are all
blank yields no document; the JSON path emits an entry whenever the side
sub-object is present. -/
theorem csv_document_requires_market_field :
    (∀ (row : List (String × CellVal)) (mapping : List (String × String))
        (sym ot : String) (strike : Rat) (t : Nat) (doc : List (String × DocVal)),
        create_option_document row mapping sym ot strike t = some doc →
        4 < doc.length) ∧
    (∀ (row : List (String × CellVal)) (mapping : List (String × String))
        (sym ot : String) (strike : Rat) (t : Nat),
        (∀ p ∈ mapping, csvFieldValue (lookupCell row p.1) = none) →
        create_option_document row mapping sym ot strike t = none) := by
  constructor
  · intro row mapping sym ot strike t doc h
    unfold create_option_document at h
    split at h
    · cases h
      assumption
    · cases h
  · intro row mapping sym ot strike t hall
    have hex : (mapping.filterMap fun p =>
        (csvFieldValue (lookupCell row p.1)).map fun dv => (p.2, dv)) = [] := by
      rw [List.filterMap_eq_nil_iff]
      intro p hp
      rw [hall p hp]
      rfl
    simp only [create_option_document, csvDocFields, hex, List.append_nil]
    rfl

/-- Concrete instantiation of csv_document_requires_market_field: a row
with one populated cell yields a five-field document, and an empty row
yields none. -/
theorem csv_document_requires_market_field_witness :
    (4 < ([("symbol", DocVal.str "NIFTY"), ("type", DocVal.str "CALL"),
           ("strike_price", DocVal.num 100), ("fetched_at", DocVal.time 0),
           ("open_interest", DocVal.num 5)] : List (String × DocVal)).length) ∧
    create_option_document [] call_columns "NIFTY" "CALL" 100 0 = none :=
  ⟨csv_document_requires_market_field.1 [("OI", CellVal.num 5)] call_columns
      "NIFTY" "CALL" 100 0
      [("symbol", DocVal.str "NIFTY"), ("type", DocVal.str "CALL"),
       ("strike_price", DocVal.num 100), ("fetched_at", DocVal.time 0),
       ("open_interest", DocVal.num 5)] (by decide),
   csv_document_requires_market_field.2 [] call_columns "NIFTY" "CALL" 100 0
      (by decide)⟩

/-! ### Strike-price validation -/

/-- The strike values the parse loop skips: missing keys and Python
falsy values (None, 0, 0.0, the empty string). -/
def strikeFalsy : Option RawVal → Bool
  | none => true
  | some v => !pyTruthy v

/-- Strike values that are strings rejected by float(). -/
def strikeUnparseableStr : Option RawVal → Bool
  | some (.str s) => (parseDecimal s).isNone
  | _ => false

/-- A raw row carrying a negative numeric strike price. -/
def negStrikePayload : RawPayload :=
  { data := [
      { strikePrice := some (.int (-100))
        expiryDate := some "30-Jan-2025"
        CE := some { lastPrice := some (.num (mkRat 12575 100)) } } ] }

/-- C7 counterexample: a row with raw strikePrice -100 passes the falsy
guard and is emitted as a CALL record with a non-positive strike. -/
theorem negative_strike_emitted_cex :
    (parse_option_chain negStrikePayload "NIFTY" 0).1 =
      [{ symbol := "NIFTY", type := .CALL, strike_price := mkRat (-100) 1,
         expiry_date := "30-Jan-2025", identifier := "NIFTY_CE_-100_30-Jan-2025",
         fetched_at := 0, last_price := some (mkRat 12575 100) }] ∧
    (mkRat (-100) 1 : Rat) ≤ 0 := by
  decide

/-- C7 amended: rows whose strike is missing or falsy contribute no
records, and rows whose strike is a string float() rejects contribute no
records either; the guard does not reject negative numeric strikes, so
an emitted strike may be negative, and a missing expiryDate becomes the
empty string. -/
theorem malformed_strike_rows_skipped :
    (∀ (r : RawRecord) (sym : String) (uv : Option RawVal) (t : Nat),
        strikeFalsy r.strikePrice = true →
        recordEntries r sym uv t = (none, none)) ∧
    (∀ (r : RawRecord) (sym : String) (uv : Option RawVal) (t : Nat),
        strikeUnparseableStr r.strikePrice = true →
        recordEntries r sym uv t = (none, none)) := by
  constructor
  · intro r sym uv t h
    cases hsp : r.strikePrice with
    | none => simp only [recordEntries, hsp]
    | some v =>
        rw [hsp] at h
        simp only [strikeFalsy, Bool.not_eq_true'] at h
        simp only [recordEntries, hsp]
        rw [if_neg (by simp [h])]
  · intro r sym uv t h
    cases hsp : r.strikePrice with
    | none =>
        rw [hsp] at h
        cases h
    | some v =>
        cases v with
        | null => rw [hsp] at h; cases h
        | int n => rw [hsp] at h; cases h
        | num q => rw [hsp] at h; cases h
        | str s =>
            rw [hsp] at h
            simp only [strikeUnparseableStr, Option.isNone_iff_eq_none] at h
            have hbad : pyFloat (RawVal.str s) = none := h
            simp only [recordEntries, hsp]
            by_cases htr : pyTruthy (.str s) = true
            · have hb : ∀ (os : Option RawSide) (ot : OptionType),
                  (os.bind fun side =>
                    create_option_entry side sym ot (.str s)
                      (r.expiryDate.getD "") uv t) = none := by
                intro os ot
                cases os with
                | none => rfl
                | some side =>
                    exact create_option_entry_bad_strike side sym ot (.str s)
                      (r.expiryDate.getD "") uv t hbad
              rw [if_pos htr, hb r.CE OptionType.CALL, hb r.PE OptionType.PUT]
            · rw [if_neg htr]

/-- Concrete instantiation of malformed_strike_rows_skipped: a zero
strike row and a non-numeric strike row each contribute no records. -/
theorem malformed_strike_rows_skipped_witness :
    recordEntries
      { strikePrice := some (.int 0), expiryDate := some "E",
        CE := some { lastPrice := some (.int 5) } } "NIFTY" none 0 = (none, none) ∧
    recordEntries
      { strikePrice := some (.str "abc"), expiryDate := some "E",
        CE := some { lastPrice := some (.int 5) } } "NIFTY" none 0 = (none, none) :=
  ⟨malformed_strike_rows_skipped.1
      { strikePrice := some (.int 0), expiryDate := some "E",
        CE := some { lastPrice := some (.int 5) } } "NIFTY" none 0 (by decide),
   malformed_strike_rows_skipped.2
      { strikePrice := some (.str "abc"), expiryDate := some "E",
        CE := some { lastPrice := some (.int 5) } } "NIFTY" none 0 (by decide)⟩

end NSE
